import Mathlib

/-
Verification of the contract-instance dispatch and deployment-linking layer
(`src/contract.rs`): the `Instance` signature index and method resolution,
the `Linker` library-linking state machine, network resolution, and
deployment entry points.  Collaborator interfaces that live outside this
file of the repository (the ABI codec, the bytecode link primitive, the
method/deploy builders) are modelled from the specification, marked
`Modelled from the spec:` in their doc comments.
-/

namespace EthContract

/-- Modelled from the spec: a 20-byte account address of the
address-addressable virtual machine.  The concrete byte representation is
irrelevant to this layer, so an address is a natural number (understood
modulo 2^160 by the encoder). -/
abbrev Address : Type := Nat

/-- Modelled from the spec: canonical argument types understood by the ABI
codec collaborator.  Only a representative set of types is needed by this
layer, which never inspects them beyond computing canonical names. -/
inductive ParamType where
  | uint256
  | address
  | bool
deriving DecidableEq

/-- Modelled from the spec: the canonical name of an argument type, used to
build canonical signature strings. -/
def ParamType.typeName : ParamType → String
  | .uint256 => "uint256"
  | .address => "address"
  | .bool => "bool"

/-- Modelled from the spec: a typed argument value as accepted by the ABI
codec (`encode_input(function, args) -> bytes`). -/
inductive Token where
  | uint256 (n : Nat)
  | address (a : Address)
  | bool (b : Bool)
deriving DecidableEq

/-- Modelled from the spec: the argument type of a token value, used by the
codec to check arguments against a function's input types. -/
def Token.paramType : Token → ParamType
  | .uint256 _ => .uint256
  | .address _ => .address
  | .bool _ => .bool

/-- Modelled from the spec: the byte encoding of one token (32-byte words in
the real codec; the exact bytes are opaque to this layer). -/
def Token.encode : Token → List Nat
  | .uint256 n => 0 :: [n % 2 ^ 256]
  | .address a => 1 :: [(a : Nat) % 2 ^ 160]
  | .bool b => 2 :: [if b then 1 else 0]

/-- A function of the interface description: a name, ordered input types,
and a constant (read-only) flag, as in the ABI `Function` type of the
collaborator description. -/
structure Function where
  name : String
  inputs : List ParamType
  constant : Bool
deriving DecidableEq

/-- Modelled from the spec: the canonical signature string of a function
(`signature(function) -> string`): the name followed by the parenthesised,
comma-separated canonical argument-type names.  This is the
`FunctionExt::abi_signature` collaborator. -/
def Function.abi_signature (f : Function) : String :=
  f.name ++ "(" ++ String.intercalate "," (f.inputs.map ParamType.typeName) ++ ")"

/-- Modelled from the spec: error type of the ABI collaborator.
`InvalidName` is the resolution failure raised for an unknown signature;
`InvalidData` is the distinct argument-encoding failure. -/
inductive AbiError where
  | InvalidName (name : String)
  | InvalidData
deriving DecidableEq

/-- Modelled from the spec: `encode_input(function, args) -> bytes` of the
ABI codec collaborator: checks the typed arguments against the function's
input types and produces the call payload, failing with an encoding error
on mismatch. -/
def Function.encode_input (f : Function) (params : List Token) : Except AbiError (List Nat) :=
  if params.map Token.paramType = f.inputs then
    Except.ok (params.flatMap Token.encode)
  else
    Except.error AbiError.InvalidData

/- ### Hash-map model

`HashMap<String, V>` is modelled as an association list together with
last-insertion-wins construction: `hmInsert` is `HashMap::insert` (the new
entry replaces any previous entry of the same key), `hmFromList` is
`collect` from an iterator of pairs, and `hmGet` is `HashMap::get`. -/

/-- Hash-map insertion `HashMap::insert`: the new binding replaces any existing binding of the
same key. -/
def hmInsert {α : Type} (m : List (String × α)) (k : String) (v : α) : List (String × α) :=
  (k, v) :: m.filter (fun kv => kv.1 ≠ k)

/-- Hash-map lookup `HashMap::get`: the binding of the key, if any. -/
def hmGet {α : Type} : List (String × α) → String → Option α
  | [], _ => none
  | kv :: rest, k => if kv.1 = k then some kv.2 else hmGet rest k

/-- Folding `hmInsert` over the pair iterator, as `collect` into a hash map does
(so that later pairs overwrite earlier ones). -/
def hmFromListAux {α : Type} (m : List (String × α)) : List (String × α) → List (String × α)
  | [] => m
  | kv :: rest => hmFromListAux (hmInsert m kv.1 kv.2) rest

/-- Hash-map construction from a list of key-value pairs, as collecting an iterator into a hash map does. -/
def hmFromList {α : Type} (l : List (String × α)) : List (String × α) :=
  hmFromListAux [] l

/-- The value of the LAST pair of the list carrying the given key: the
reference semantics of hash-map construction from an iterator. -/
def lastFind {α : Type} : List (String × α) → String → Option α
  | [], _ => none
  | kv :: rest, k =>
    match lastFind rest k with
    | some v => some v
    | none => if kv.1 = k then some kv.2 else none

theorem hmGet_filter_ne {α : Type} (m : List (String × α)) (k k' : String) (h : k' ≠ k) :
    hmGet (m.filter (fun kv => kv.1 ≠ k)) k' = hmGet m k' := by
  induction m with
  | nil => rfl
  | cons kv rest ih =>
    by_cases hk : kv.1 = k
    · have hne : kv.1 ≠ k' := fun he => h (he.symm.trans hk)
      simp only [List.filter_cons, hk]
      simp only [hmGet, if_neg hne]
      simpa using ih
    · simp only [List.filter_cons]
      have : (decide ¬kv.1 = k) = true := by simpa using hk
      rw [this]
      simp only [cond_true, hmGet]
      by_cases hk' : kv.1 = k'
      · simp [hk']
      · simp only [if_neg hk']
        exact ih

theorem hmGet_hmInsert {α : Type} (m : List (String × α)) (k k' : String) (v : α) :
    hmGet (hmInsert m k v) k' = if k' = k then some v else hmGet m k' := by
  by_cases h : k' = k
  · subst h
    simp [hmInsert, hmGet]
  · simp only [hmInsert, hmGet, if_neg h]
    rw [if_neg (fun he => h he.symm)]
    exact hmGet_filter_ne m k k' h

theorem hmGet_hmFromListAux {α : Type} (l : List (String × α)) (m : List (String × α)) (k : String) :
    hmGet (hmFromListAux m l) k =
      match lastFind l k with
      | some v => some v
      | none => hmGet m k := by
  induction l generalizing m with
  | nil => rfl
  | cons kv rest ih =>
    simp only [hmFromListAux, lastFind]
    rw [ih]
    cases hrest : lastFind rest k with
    | some v => rfl
    | none =>
      simp only []
      rw [hmGet_hmInsert]
      by_cases h : k = kv.1
      · simp [h]
      · have h' : ¬ kv.1 = k := fun he => h he.symm
        simp [h, h']

theorem hmGet_hmFromList {α : Type} (l : List (String × α)) (k : String) :
    hmGet (hmFromList l) k = lastFind l k := by
  unfold hmFromList
  rw [hmGet_hmFromListAux]
  cases h : lastFind l k with
  | some v => rfl
  | none => rfl

theorem lastFind_mem {α : Type} (l : List (String × α)) (k : String) (v : α)
    (h : lastFind l k = some v) : (k, v) ∈ l := by
  induction l with
  | nil => simp [lastFind] at h
  | cons kv rest ih =>
    simp only [lastFind] at h
    cases hrest : lastFind rest k with
    | some w =>
      rw [hrest] at h
      exact List.mem_cons_of_mem _ (ih (hrest.trans h))
    | none =>
      rw [hrest] at h
      by_cases hk : kv.1 = k
      · rw [if_pos hk] at h
        have : kv = (k, v) := by
          cases kv with
          | mk a b =>
            simp at hk
            simp at h
            simp [hk, h]
        exact this ▸ List.mem_cons_self _ _
      · rw [if_neg hk] at h
        exact absurd h (by simp)

theorem lastFind_eq_none {α : Type} (l : List (String × α)) (k : String)
    (h : ∀ kv ∈ l, kv.1 ≠ k) : lastFind l k = none := by
  induction l with
  | nil => rfl
  | cons kv rest ih =>
    simp only [lastFind]
    rw [ih (fun x hx => h x (List.mem_cons_of_mem _ hx))]
    rw [if_neg (h kv (List.mem_cons_self _ _))]

theorem lastFind_of_mem_nodup {α : Type} (l : List (String × α)) (k : String) (v : α)
    (hmem : (k, v) ∈ l) (hnd : (l.map Prod.fst).Nodup) : lastFind l k = some v := by
  induction l with
  | nil => simp at hmem
  | cons kv rest ih =>
    simp only [List.map_cons, List.nodup_cons] at hnd
    rcases List.mem_cons.mp hmem with heq | hmem'
    · rw [← heq] at hnd
      simp only [lastFind]
      rw [lastFind_eq_none rest k]
      · rw [← heq]
        simp
      · intro x hx hxk
        exact hnd.1 (List.mem_map.mpr ⟨x, hx, hxk⟩)
    · simp only [lastFind]
      rw [ih hmem' hnd.2]

theorem hmGet_of_mem_nodup {α : Type} (m : List (String × α)) (k : String) (v : α)
    (hmem : (k, v) ∈ m) (hnd : (m.map Prod.fst).Nodup) : hmGet m k = some v := by
  induction m with
  | nil => simp at hmem
  | cons kv rest ih =>
    simp only [List.map_cons, List.nodup_cons] at hnd
    rcases List.mem_cons.mp hmem with heq | hmem'
    · rw [← heq]
      simp [hmGet]
    · have hne : kv.1 ≠ k := by
        intro he
        exact hnd.1 (he ▸ List.mem_map_of_mem Prod.fst hmem')
      simp only [hmGet, if_neg hne]
      exact ih hmem' hnd.2

theorem hmFromListAux_keys_nodup {α : Type} (l m : List (String × α))
    (hm : (m.map Prod.fst).Nodup) : ((hmFromListAux m l).map Prod.fst).Nodup := by
  induction l generalizing m with
  | nil => exact hm
  | cons kv rest ih =>
    apply ih
    simp only [hmInsert, List.map_cons, List.nodup_cons]
    constructor
    · intro hmem
      rcases List.mem_map.mp hmem with ⟨x, hx, hxk⟩
      rcases List.mem_filter.mp hx with ⟨_, hxne⟩
      simp at hxne
      exact hxne hxk
    · exact List.Nodup.sublist (List.Sublist.map Prod.fst (List.filter_sublist m)) hm

theorem hmFromList_keys_nodup {α : Type} (l : List (String × α)) :
    ((hmFromList l).map Prod.fst).Nodup :=
  hmFromListAux_keys_nodup l [] (by simp)

theorem hmGet_mem {α : Type} (m : List (String × α)) (k : String) (v : α)
    (h : hmGet m k = some v) : (k, v) ∈ m := by
  induction m with
  | nil => simp [hmGet] at h
  | cons kv rest ih =>
    simp only [hmGet] at h
    by_cases hk : kv.1 = k
    · rw [if_pos hk] at h
      have hv : kv.2 = v := by
        simpa using h
      exact List.mem_cons.mpr (Or.inl (by
        cases kv with
        | mk a b => simp at hk hv; simp [hk, hv]))
    · rw [if_neg hk] at h
      exact List.mem_cons_of_mem _ (ih h)

/- ### Interface description and builders -/

/-- The interface description (`Abi`): the function table, a hash map from
function name to the list of overloads.  The association list is the
iteration view of `HashMap<String, Vec<Function>>`; a genuine hash map has
pairwise-distinct keys, stated where needed as a `Nodup` hypothesis. -/
structure Abi where
  functions : List (String × List Function)
deriving DecidableEq

/-- Look up `abi.functions[name][index]`, the double indexing performed by
`Instance::method`; `none` models the out-of-bounds panic of the unchecked
Rust indexing. -/
def Abi.functionAt (abi : Abi) (name : String) (index : Nat) : Option Function :=
  (hmGet abi.functions name).bind fun fns => fns[index]?

/-- Modelled from the spec: the per-network deployment entry of the static
artifact's network table (only the registered address is consumed by this
layer). -/
structure Network where
  address : Address
deriving DecidableEq

/-- Modelled from the spec: one item of deployment bytecode, either a
concrete code byte or a named library placeholder (link reference) that
must be replaced before the bytecode is deployable. -/
inductive BytecodeItem where
  | code (byte : Nat)
  | placeholder (name : String)
deriving DecidableEq

/-- Modelled from the spec: unlinked deployment bytecode, a template of
code bytes and named library placeholders (`ethcontract_common::Bytecode`). -/
structure Bytecode where
  items : List BytecodeItem
deriving DecidableEq

/-- Modelled from the spec: validity of a library name for linking: at most
38 characters, all from the identifier alphabet used for placeholder
markers. -/
def validLibraryName (name : String) : Bool :=
  name.length ≤ 38 && name.toList.all (fun c => c.isAlphanum || c = '_' || c = '$')

/-- Modelled from the spec: the 20-byte encoding of an address, substituted
for a placeholder during linking. -/
def addressBytes (a : Address) : List Nat :=
  (List.range 20).map (fun i => a / 256 ^ (19 - i) % 256)

/-- Modelled from the spec: link errors: an invalid library name, or a
deployment attempted while unresolved placeholders remain. -/
inductive LinkError where
  | invalidName (name : String)
  | incompleteLink
deriving DecidableEq

/-- Modelled from the spec: `Bytecode::link`: fail if the name is not a
valid placeholder identifier; otherwise replace every occurrence of the
named placeholder with the 20-byte address encoding. -/
def Bytecode.link (bc : Bytecode) (name : String) (address : Address) : Except LinkError Bytecode :=
  if validLibraryName name then
    Except.ok ⟨bc.items.flatMap fun item =>
      match item with
      | .placeholder n => if n = name then (addressBytes address).map .code else [item]
      | .code b => [.code b]⟩
  else
    Except.error (LinkError.invalidName name)

/-- Whether the bytecode still contains at least one unresolved library
placeholder. -/
def Bytecode.hasUnlinked (bc : Bytecode) : Bool :=
  bc.items.any fun item =>
    match item with
    | .placeholder _ => true
    | .code _ => false

/-- Modelled from the spec: the static, already-parsed contract artifact
supplied by the artifact store: interface description, bytecode template,
and network table. -/
structure Artifact where
  abi : Abi
  networks : List (String × Network)
  bytecode : Bytecode
deriving DecidableEq

/-- Modelled from the spec: default method parameters (sender, gas limit,
gas price, value) stored on an `Instance` and merged into every builder
(`MethodDefaults` of the method module). -/
structure MethodDefaults where
  sender : Option Address := none
  gasLimit : Option Nat := none
  gasPrice : Option Nat := none
  value : Option Nat := none
deriving DecidableEq

instance : Inhabited MethodDefaults := ⟨{}⟩

/-- Modelled from the spec: the per-call transaction parameters of a method
builder; unset fields fall back to the instance defaults at merge time. -/
structure TransactionParams where
  sender : Option Address := none
  gasLimit : Option Nat := none
  gasPrice : Option Nat := none
  value : Option Nat := none
deriving DecidableEq

/-- Modelled from the spec: a configurable method call/transaction builder
(`MethodBuilder` of the method module): transport handle, resolved
function, target address, encoded call data and call parameters. -/
structure MethodBuilder (W : Type) where
  web3 : W
  function : Function
  address : Address
  data : List Nat
  tx : TransactionParams
deriving DecidableEq

/-- Modelled from the spec: `MethodBuilder::new`: a fresh builder for a
resolved function with no call parameters set. -/
def MethodBuilder.new {W : Type} (web3 : W) (function : Function) (address : Address)
    (data : List Nat) : MethodBuilder W :=
  { web3 := web3, function := function, address := address, data := data, tx := {} }

/-- Modelled from the spec: `MethodBuilder::with_defaults`: merge the
instance defaults into the builder, each parameter falling back to the
default only when not already set. -/
def MethodBuilder.with_defaults {W : Type} (b : MethodBuilder W) (d : MethodDefaults) :
    MethodBuilder W :=
  { b with tx :=
    { sender := b.tx.sender <|> d.sender
      gasLimit := b.tx.gasLimit <|> d.gasLimit
      gasPrice := b.tx.gasPrice <|> d.gasPrice
      value := b.tx.value <|> d.value } }

/-- Modelled from the spec: explicitly set the sender on a builder. -/
def MethodBuilder.setSender {W : Type} (b : MethodBuilder W) (v : Address) : MethodBuilder W :=
  { b with tx := { b.tx with sender := some v } }

/-- Modelled from the spec: explicitly set the gas limit on a builder. -/
def MethodBuilder.setGasLimit {W : Type} (b : MethodBuilder W) (v : Nat) : MethodBuilder W :=
  { b with tx := { b.tx with gasLimit := some v } }

/-- Modelled from the spec: explicitly set the gas price on a builder. -/
def MethodBuilder.setGasPrice {W : Type} (b : MethodBuilder W) (v : Nat) : MethodBuilder W :=
  { b with tx := { b.tx with gasPrice := some v } }

/-- Modelled from the spec: explicitly set the transferred value on a
builder. -/
def MethodBuilder.setValue {W : Type} (b : MethodBuilder W) (v : Nat) : MethodBuilder W :=
  { b with tx := { b.tx with value := some v } }

/- ### Instance and the signature index -/

/-- A contract instance at an address (`Instance<T>`); `W` stands for the
injected `Web3<T>` transport handle, opaque to this layer. -/
structure Instance (W : Type) where
  web3 : W
  abi : Abi
  address : Address
  defaults : MethodDefaults
  methods : List (String × (String × Nat))

/-- The signature-index pair list produced for one name's overload list by
`functions.iter().enumerate()`: entries `(signature, (name, index))` with
indices counted from `start`. -/
def enumSigs (name : String) (start : Nat) : List Function → List (String × (String × Nat))
  | [] => []
  | f :: rest => (f.abi_signature, (name, start)) :: enumSigs name (start + 1) rest

/-- The flat pair iterator of `Instance::at`: for every `(name, functions)`
entry of the function table, for every overload index, the pair
`(signature, (name, index))`, in construction iteration order. -/
def methodsList : List (String × List Function) → List (String × (String × Nat))
  | [] => []
  | (name, fns) :: rest => enumSigs name 0 fns ++ methodsList rest

/-- The constructor `Instance::at`: bind an instance to an address, building the signature
index from the interface description by collecting the signature pairs into
a hash map. -/
def Instance.at {W : Type} (web3 : W) (abi : Abi) (address : Address) : Instance W :=
  { web3 := web3
    abi := abi
    address := address
    defaults := {}
    methods := hmFromList (methodsList abi.functions) }

/-- Method resolution `Instance::method`: resolve the signature through the signature index,
fetch the function by unchecked double indexing (`none` models the panic of
an out-of-bounds index), encode the arguments, and build a method builder
with the instance defaults merged in. -/
def Instance.method {W : Type} (inst : Instance W) (signature : String) (params : List Token) :
    Option (Except AbiError (MethodBuilder W)) :=
  match hmGet inst.methods signature with
  | none => some (Except.error (AbiError.InvalidName signature))
  | some (name, index) =>
    match inst.abi.functionAt name index with
    | none => none
    | some function =>
      some (match function.encode_input params with
        | Except.error e => Except.error e
        | Except.ok data =>
          Except.ok ((MethodBuilder.new inst.web3 function inst.address data).with_defaults
            inst.defaults))

/- ### Linker and deployment -/

/-- Builder for specifying linking options for a contract (`Linker`). -/
structure Linker where
  abi : Abi
  bytecode : Bytecode
deriving DecidableEq

/-- The constructor `Linker::new`: a fresh linker holding the artifact's interface
description and bytecode template. -/
def Linker.new (artifact : Artifact) : Linker :=
  { abi := artifact.abi, bytecode := artifact.bytecode }

/-- Incremental linking `Linker::library`: incrementally link one library, propagating the link
error of `Bytecode::link` and otherwise returning the linker with the
updated bytecode. -/
def Linker.library (l : Linker) (name : String) (address : Address) : Except LinkError Linker :=
  match l.bytecode.link name address with
  | Except.error e => Except.error e
  | Except.ok bc => Except.ok { l with bytecode := bc }

/-- Modelled from the spec: deployment errors: an incomplete-linking or
invalid-name link error lifted into deployment (`From<LinkError>`), or a
constructor-argument encoding error. -/
inductive DeployError where
  | link (e : LinkError)
  | abi (e : AbiError)
deriving DecidableEq

/-- Modelled from the spec: a configured pending deployment
(`DeployBuilder`): transport handle, linker context and the transaction
payload `deployable_bytecode ++ encoded_constructor_arguments`. -/
structure DeployBuilder (W : Type) where
  web3 : W
  context : Linker
  data : List Nat
deriving DecidableEq

/-- The concrete code bytes of fully linked bytecode. -/
def Bytecode.codeBytes (bc : Bytecode) : List Nat :=
  bc.items.flatMap fun item =>
    match item with
    | .code b => [b]
    | .placeholder _ => []

/-- Modelled from the spec: `DeployBuilder::new`: the terminal
link-completeness check: if any placeholder remains unresolved the
deployment fails with an incomplete-linking error before any transport
interaction; otherwise the transaction payload is assembled from the linked
bytecode and the encoded constructor arguments. -/
def DeployBuilder.new {W : Type} (web3 : W) (linker : Linker) (params : List Token) :
    Except DeployError (DeployBuilder W) :=
  if linker.bytecode.hasUnlinked then
    Except.error (DeployError.link LinkError.incompleteLink)
  else
    Except.ok
      { web3 := web3
        context := linker
        data := linker.bytecode.codeBytes ++ params.flatMap Token.encode }

/-- Deployment `Linker::deploy`: finish linking and create a deployment builder (the
completeness check lives in `DeployBuilder::new`). -/
def Linker.deploy {W : Type} (l : Linker) (web3 : W) (params : List Token) :
    Except DeployError (DeployBuilder W) :=
  DeployBuilder.new web3 l params

/-- The entry point `Instance::builder`: create a deployment builder for an artifact
without linking any library. -/
def Instance.builder {W : Type} (web3 : W) (artifact : Artifact) (params : List Token) :
    Except DeployError (DeployBuilder W) :=
  (Linker.new artifact).deploy web3 params

/-- The library-linking loop of `Instance::link_and_deploy`: link each
`(name, address)` pair in iterator order, stopping at the first link
error. -/
def linkLibraries (linker : Linker) : List (String × Address) → Except LinkError Linker
  | [] => Except.ok linker
  | (name, address) :: rest =>
    match linker.library name address with
    | Except.error e => Except.error e
    | Except.ok l => linkLibraries l rest

/-- The entry point `Instance::link_and_deploy`: link the given libraries in iterator
order, propagating the first link error (lifted to a deployment error),
then deploy the fully linked linker. -/
def Instance.link_and_deploy {W : Type} (web3 : W) (artifact : Artifact) (params : List Token)
    (libraries : List (String × Address)) : Except DeployError (DeployBuilder W) :=
  match linkLibraries (Linker.new artifact) libraries with
  | Except.error e => Except.error (DeployError.link e)
  | Except.ok linker => linker.deploy web3 params

/-- The `Deploy::at_address` implementation for `Instance`: conclude a successful deployment
by binding an instance at the receipt-reported created address, with the
linker's interface description. -/
def Instance.at_address {W : Type} (web3 : W) (address : Address) (cx : Linker) : Instance W :=
  Instance.at web3 cx.abi address

/- ### Network resolution -/

/-- Deployment information for an `Instance` (`Deployments`): the contract
ABI and the known contract addresses per network ID. -/
structure Deployments where
  abi : Abi
  networks : List (String × Network)

/-- The constructor `Deployments::new`: extract the ABI and network table from an
artifact. -/
def Deployments.new (artifact : Artifact) : Deployments :=
  { abi := artifact.abi, networks := artifact.networks }

/-- The `FromNetwork::from_network` implementation for `Instance`: look up the registered
address for the current network ID and bind an instance at it; `none` when
the network table has no entry for the ID. -/
def Instance.from_network {W : Type} (web3 : W) (network_id : String) (cx : Deployments) :
    Option (Instance W) :=
  match hmGet cx.networks network_id with
  | none => none
  | some network => some (Instance.at web3 cx.abi network.address)

/- ### Sample data used by witness theorems -/

/-- A sample transfer function with two arguments. -/
def sampleTransfer : Function :=
  { name := "transfer", inputs := [ParamType.address, ParamType.uint256], constant := false }

/-- A sample read-only function with one argument. -/
def sampleBalanceOf : Function :=
  { name := "balanceOf", inputs := [ParamType.address], constant := true }

/-- A sample overload of `transfer` with a single argument. -/
def sampleTransferOne : Function :=
  { name := "transfer", inputs := [ParamType.address], constant := false }

/-- A sample well-formed interface description. -/
def sampleAbi : Abi :=
  { functions := [("transfer", [sampleTransfer, sampleTransferOne]), ("balanceOf", [sampleBalanceOf])] }

/-- A sample bytecode template with one library placeholder. -/
def sampleBytecode : Bytecode :=
  { items := [BytecodeItem.code 96, BytecodeItem.placeholder "MathLib", BytecodeItem.code 87] }

/-- A sample artifact for the sample interface description. -/
def sampleArtifact : Artifact :=
  { abi := sampleAbi
    networks := [("1", { address := 1193046 }), ("4", { address := 774 })]
    bytecode := sampleBytecode }

/-- A sample function whose signature collides with `sampleTransfer` under a
different hash-map name entry. -/
def sampleShadowTransfer : Function :=
  { name := "transfer", inputs := [ParamType.address, ParamType.uint256], constant := true }

/- ### Structural lemmas about the signature index -/

theorem lastFind_append {α : Type} (a b : List (String × α)) (k : String) :
    lastFind (a ++ b) k =
      match lastFind b k with
      | some v => some v
      | none => lastFind a k := by
  induction a with
  | nil =>
    simp only [List.nil_append]
    cases h : lastFind b k with
    | some v => rfl
    | none => rfl
  | cons kv rest ih =>
    have hstep : lastFind ((kv :: rest) ++ b) k =
        match lastFind (rest ++ b) k with
        | some v => some v
        | none => if kv.1 = k then some kv.2 else none := rfl
    rw [hstep, ih]
    cases h : lastFind b k with
    | some v => rfl
    | none => rfl

theorem enumSigs_mem_of_getElem (name : String) (start : Nat) (fns : List Function) (j : Nat)
    (f : Function) (h : fns[j]? = some f) :
    (f.abi_signature, (name, start + j)) ∈ enumSigs name start fns := by
  induction fns generalizing start j with
  | nil => simp at h
  | cons g rest ih =>
    cases j with
    | zero =>
      have hg : g = f := by simpa using h
      subst hg
      exact List.mem_cons_self _ _
    | succ j =>
      have h' : rest[j]? = some f := by simpa using h
      have := ih (start + 1) j h'
      have harith : start + 1 + j = start + (j + 1) := by omega
      rw [harith] at this
      exact List.mem_cons_of_mem _ this

theorem methodsList_mem_of (l : List (String × List Function)) (name : String)
    (fns : List Function) (j : Nat) (f : Function)
    (hmem : (name, fns) ∈ l) (h : fns[j]? = some f) :
    (f.abi_signature, (name, j)) ∈ methodsList l := by
  induction l with
  | nil => simp at hmem
  | cons kv rest ih =>
    cases kv with
    | mk n' fns' =>
      simp only [methodsList]
      rcases List.mem_cons.mp hmem with heq | hmem'
      · injection heq with h1 h2
        subst h1
        subst h2
        have := enumSigs_mem_of_getElem name 0 fns j f h
        rw [Nat.zero_add] at this
        exact List.mem_append_left _ this
      · exact List.mem_append_right _ (ih hmem')

theorem enumSigs_mem_inv (name : String) (start : Nat) (fns : List Function)
    (s n : String) (i : Nat) (h : (s, (n, i)) ∈ enumSigs name start fns) :
    n = name ∧ ∃ j f, i = start + j ∧ fns[j]? = some f ∧ s = f.abi_signature := by
  induction fns generalizing start with
  | nil => simp [enumSigs] at h
  | cons g rest ih =>
    rcases List.mem_cons.mp h with heq | h'
    · have hs : s = g.abi_signature := congrArg Prod.fst heq
      have hn : n = name := congrArg (fun p => p.2.1) heq
      have hi : i = start := congrArg (fun p => p.2.2) heq
      refine ⟨hn, 0, g, by omega, by simp, hs⟩
    · rcases ih (start + 1) h' with ⟨hn, j, f, hi, hf, hs⟩
      refine ⟨hn, j + 1, f, by omega, by simpa using hf, hs⟩

theorem methodsList_mem_inv (l : List (String × List Function))
    (s n : String) (i : Nat) (h : (s, (n, i)) ∈ methodsList l) :
    ∃ fns, (n, fns) ∈ l ∧ ∃ f, fns[i]? = some f ∧ s = f.abi_signature := by
  induction l with
  | nil => simp [methodsList] at h
  | cons kv rest ih =>
    cases kv with
    | mk n' fns' =>
      simp only [methodsList] at h
      rcases List.mem_append.mp h with hl | hr
      · rcases enumSigs_mem_inv n' 0 fns' s n i hl with ⟨hn, j, f, hi, hf, hs⟩
        have hij : i = j := by omega
        subst hij
        exact ⟨fns', by rw [hn]; exact List.mem_cons_self _ _, f, hf, hs⟩
      · rcases ih hr with ⟨fns, hmem, f, hf, hs⟩
        exact ⟨fns, List.mem_cons_of_mem _ hmem, f, hf, hs⟩

theorem linkLibraries_append (lk : Linker) (a b : List (String × Address)) :
    linkLibraries lk (a ++ b) =
      match linkLibraries lk a with
      | Except.error e => Except.error e
      | Except.ok l => linkLibraries l b := by
  induction a generalizing lk with
  | nil => rfl
  | cons kv rest ih =>
    cases kv with
    | mk name addr =>
      simp only [List.cons_append, linkLibraries]
      cases h : lk.library name addr with
      | error e => rfl
      | ok l => exact ih l

/-- Whether an `Except` value is a success, stated as a boolean so that
properties about fallible operations need no existential binder. -/
def exceptIsOk {ε α : Type} : Except ε α → Bool
  | Except.ok _ => true
  | Except.error _ => false

/- ### Claim theorems -/

/-- C1: for every well-formed interface description (pairwise-distinct
hash-map keys and no two functions sharing a canonical signature) and every
function `f` in it, `Instance::at` followed by `Instance::method` at `f`'s
computed signature string resolves to exactly `f`: the returned builder is
constructed from `f`'s definition (signature computation followed by
signature-index lookup is a round trip on the function table). -/
theorem c1_signature_round_trip {W : Type} (web3 : W) (abi : Abi) (address : Address)
    (hkeys : (abi.functions.map Prod.fst).Nodup)
    (hsigs : ((methodsList abi.functions).map Prod.fst).Nodup)
    (name : String) (fns : List Function) (i : Nat) (f : Function)
    (hmem : (name, fns) ∈ abi.functions) (hf : fns[i]? = some f) (params : List Token) :
    (Instance.at web3 abi address).method f.abi_signature params =
      some ((f.encode_input params).map fun data =>
        (MethodBuilder.new web3 f address data).with_defaults {}) := by
  have hidx : hmGet (Instance.at web3 abi address).methods f.abi_signature = some (name, i) := by
    show hmGet (hmFromList (methodsList abi.functions)) f.abi_signature = some (name, i)
    rw [hmGet_hmFromList]
    exact lastFind_of_mem_nodup _ _ _ (methodsList_mem_of abi.functions name fns i f hmem hf)
      hsigs
  have hfn : (Instance.at web3 abi address).abi.functionAt name i = some f := by
    show abi.functionAt name i = some f
    unfold Abi.functionAt
    rw [hmGet_of_mem_nodup abi.functions name fns hmem hkeys]
    simpa using hf
  simp only [Instance.method, hidx, hfn]
  cases henc : f.encode_input params with
  | error e => rfl
  | ok data => rfl

/-- C1 witness: the round trip evaluated on a concrete two-name,
three-function interface description, at the two-argument transfer
overload. -/
theorem c1_signature_round_trip_witness :
    (Instance.at () sampleAbi 5).method sampleTransfer.abi_signature
        [Token.address 7, Token.uint256 100] =
      some ((sampleTransfer.encode_input [Token.address 7, Token.uint256 100]).map fun data =>
        (MethodBuilder.new () sampleTransfer 5 data).with_defaults {}) :=
  c1_signature_round_trip () sampleAbi 5 (by decide) (by decide) "transfer"
    [sampleTransfer, sampleTransferOne] 0 sampleTransfer (by decide) rfl
    [Token.address 7, Token.uint256 100]

/-- C2: for every instance and every signature string that is not a key of
the signature index, `Instance::method` fails with the unknown-function
resolution error `InvalidName` carrying that signature, for every argument
list (resolution failure never reaches the encoding step), and the
argument-encoding error of `encode_input` is never an `InvalidName`, so the
two failure kinds are distinguishable. -/
theorem c2_unknown_function_error {W : Type} (inst : Instance W) (signature : String)
    (h : hmGet inst.methods signature = none) :
    (∀ params, inst.method signature params =
      some (Except.error (AbiError.InvalidName signature))) ∧
    (∀ (f : Function) (params : List Token) (e : AbiError),
      f.encode_input params = Except.error e → e ≠ AbiError.InvalidName signature) := by
  constructor
  · intro params
    simp only [Instance.method, h]
  · intro f params e henc
    unfold Function.encode_input at henc
    by_cases hty : params.map Token.paramType = f.inputs
    · rw [if_pos hty] at henc
      exact absurd henc (by simp)
    · rw [if_neg hty] at henc
      have he : AbiError.InvalidData = e := by simpa using henc
      rw [← he]
      simp

/-- C2 witness: on the sample instance, the unresolvable signature "nope"
yields the `InvalidName` error, and a concrete encoding failure yields an
error that is not an `InvalidName`. -/
theorem c2_unknown_function_error_witness :
    (Instance.at () sampleAbi 5).method "nope" [] =
      some (Except.error (AbiError.InvalidName "nope")) ∧
    AbiError.InvalidData ≠ AbiError.InvalidName "nope" :=
  ⟨(c2_unknown_function_error (Instance.at () sampleAbi 5) "nope" (by decide)).1 [],
    (c2_unknown_function_error (Instance.at () sampleAbi 5) "nope" (by decide)).2
      sampleTransfer [] AbiError.InvalidData rfl⟩

/-- C3: when two distinct (name, overload-index) pairs of the function
table compute the same canonical signature, the signature index built by
`Instance::at` maps that signature to the pair occurring later in the
construction iteration order, and holds no other binding for it (the later
insertion silently overwrites the earlier one; construction raises no
error). -/
theorem c3_duplicate_signature_later_wins {W : Type} (web3 : W) (abi : Abi) (address : Address)
    (s : String) (p1 p2 : String × Nat) (l1 l2 l3 : List (String × (String × Nat)))
    (hml : methodsList abi.functions = l1 ++ (s, p1) :: l2 ++ (s, p2) :: l3)
    (hlast : ∀ kv ∈ l3, kv.1 ≠ s) (_hne : p1 ≠ p2) :
    hmGet (Instance.at web3 abi address).methods s = some p2 ∧
    ∀ v, (s, v) ∈ (Instance.at web3 abi address).methods → v = p2 := by
  have hget : hmGet (Instance.at web3 abi address).methods s = some p2 := by
    show hmGet (hmFromList (methodsList abi.functions)) s = some p2
    rw [hmGet_hmFromList, hml, lastFind_append]
    have h2 : lastFind ((s, p2) :: l3) s = some p2 := by
      simp [lastFind, lastFind_eq_none l3 s hlast]
    rw [h2]
  refine ⟨hget, fun v hv => ?_⟩
  have hg := hmGet_of_mem_nodup _ s v hv (hmFromList_keys_nodup _)
  have : some v = some p2 := hg.symm.trans hget
  simpa using this

/-- C3 witness: two functions under different hash-map keys collapse to the
signature "transfer(address,uint256)"; the index maps it to the later pair
("b", 0). -/
theorem c3_duplicate_signature_later_wins_witness :
    hmGet (Instance.at ()
      { functions := [("a", [sampleTransfer]), ("b", [sampleShadowTransfer])] } 5).methods
        "transfer(address,uint256)" = some ("b", 0) ∧
    (("b", 0) : String × Nat) = ("b", 0) :=
  ⟨(c3_duplicate_signature_later_wins ()
      { functions := [("a", [sampleTransfer]), ("b", [sampleShadowTransfer])] } 5
      "transfer(address,uint256)" ("a", 0) ("b", 0) [] [] []
      (by decide) (by simp) (by decide)).1,
    (c3_duplicate_signature_later_wins ()
      { functions := [("a", [sampleTransfer]), ("b", [sampleShadowTransfer])] } 5
      "transfer(address,uint256)" ("a", 0) ("b", 0) [] [] []
      (by decide) (by simp) (by decide)).2 ("b", 0) (by decide)⟩

/-- C9: invariant of every instance built by `Instance::at`: every entry
`(signature -> (name, index))` of the signature index refers to an existing
function (`name` is a key of the function table and `index` a valid
position in its overload list), so the unchecked double indexing of
`Instance::method` on a successful lookup is in bounds and the method call
never panics (`method` never returns the `none` that models the panic). -/
theorem c9_signature_index_invariant {W : Type} (web3 : W) (abi : Abi) (address : Address)
    (hkeys : (abi.functions.map Prod.fst).Nodup) (s : String) (p : String × Nat)
    (hlookup : hmGet (Instance.at web3 abi address).methods s = some p) :
    (abi.functionAt p.1 p.2).isSome = true ∧
    ∀ params, ((Instance.at web3 abi address).method s params).isSome = true := by
  have hmem : (s, p) ∈ methodsList abi.functions := by
    have h := hlookup
    rw [show (Instance.at web3 abi address).methods
        = hmFromList (methodsList abi.functions) from rfl, hmGet_hmFromList] at h
    exact lastFind_mem _ _ _ h
  obtain ⟨fns, hfns, f, hf, hs⟩ := methodsList_mem_inv abi.functions s p.1 p.2 hmem
  have hget : hmGet abi.functions p.1 = some fns := hmGet_of_mem_nodup _ _ _ hfns hkeys
  have hfn : (Instance.at web3 abi address).abi.functionAt p.1 p.2 = some f := by
    show abi.functionAt p.1 p.2 = some f
    unfold Abi.functionAt
    rw [hget]
    simpa using hf
  refine ⟨by rw [show abi.functionAt p.1 p.2 = some f from hfn]; rfl, fun params => ?_⟩
  have hp : p = (p.1, p.2) := rfl
  rw [hp] at hlookup
  simp only [Instance.method, hlookup, hfn]
  cases henc : f.encode_input params with
  | error e => rfl
  | ok data => rfl

/-- C9 witness: the invariant evaluated on the sample instance at the
single-argument transfer overload entry. -/
theorem c9_signature_index_invariant_witness :
    (sampleAbi.functionAt "transfer" 1).isSome = true ∧
    ((Instance.at () sampleAbi 5).method "transfer(address)" []).isSome = true :=
  ⟨(c9_signature_index_invariant () sampleAbi 5 (by decide) "transfer(address)"
      ("transfer", 1) (by decide)).1,
    (c9_signature_index_invariant () sampleAbi 5 (by decide) "transfer(address)"
      ("transfer", 1) (by decide)).2 []⟩

/-- C4: linking never checks global completeness and deployment always
does: `Linker::library` succeeds for every individually valid library name
and address whatever placeholders remain, while `Linker::deploy` on a
linker whose bytecode still contains an unresolved placeholder returns the
incomplete-linking error, for every transport handle and constructor
arguments (the error is produced by pure builder construction, before any
transport call). -/
theorem c4_deploy_checks_completeness {W : Type} (web3 : W) (linker : Linker) (name : String)
    (addr : Address) (params : List Token) (hv : validLibraryName name = true) :
    exceptIsOk (linker.library name addr) = true ∧
    (linker.bytecode.hasUnlinked = true →
      linker.deploy web3 params = Except.error (DeployError.link LinkError.incompleteLink)) := by
  constructor
  · unfold Linker.library Bytecode.link
    rw [if_pos hv]
    rfl
  · intro hq
    unfold Linker.deploy DeployBuilder.new
    rw [if_pos hq]

/-- C4 witness: on the sample artifact with its unresolved "MathLib"
placeholder, linking an individually valid name succeeds while deploying
rejects the incomplete linker. -/
theorem c4_deploy_checks_completeness_witness :
    exceptIsOk ((Linker.new sampleArtifact).library "SafeMath" 999) = true ∧
    (Linker.new sampleArtifact).deploy () [] =
      Except.error (DeployError.link LinkError.incompleteLink) :=
  ⟨(c4_deploy_checks_completeness () (Linker.new sampleArtifact) "SafeMath" 999 []
      (by decide)).1,
    (c4_deploy_checks_completeness () (Linker.new sampleArtifact) "SafeMath" 999 []
      (by decide)).2 (by decide)⟩

/-- C5: for every linker and every library name that is not a valid
placeholder identifier (too long, or containing characters outside the
placeholder alphabet), `Linker::library` fails by returning the
invalid-name link error value; the function is total, so it fails by no
other means. -/
theorem c5_invalid_library_name (linker : Linker) (name : String) (addr : Address)
    (hv : validLibraryName name = false) :
    linker.library name addr = Except.error (LinkError.invalidName name) := by
  unfold Linker.library Bytecode.link
  rw [if_neg (by simp [hv])]

/-- C5 witness: a 40-character library name is rejected with the
invalid-name link error. -/
theorem c5_invalid_library_name_witness :
    (Linker.new sampleArtifact).library "0123456789012345678901234567890123456789" 7 =
      Except.error (LinkError.invalidName "0123456789012345678901234567890123456789") :=
  c5_invalid_library_name (Linker.new sampleArtifact)
    "0123456789012345678901234567890123456789" 7 (by decide)

/-- C6: network resolution: when the network table has an entry for the
current network identifier, `from_network` yields an instance bound to the
registered address (with the context's interface description); when the
table has no entry, it yields no instance at all — no fallback to any
default address. -/
theorem c6_network_resolution {W : Type} (web3 : W) (network_id : String) (cx : Deployments) :
    (∀ network, hmGet cx.networks network_id = some network →
      Instance.from_network web3 network_id cx =
        some (Instance.at web3 cx.abi network.address) ∧
      (Instance.at web3 cx.abi network.address).address = network.address ∧
      (Instance.at (W := W) web3 cx.abi network.address).abi = cx.abi) ∧
    (hmGet cx.networks network_id = none →
      Instance.from_network (W := W) web3 network_id cx = none) := by
  constructor
  · intro network hn
    refine ⟨?_, rfl, rfl⟩
    unfold Instance.from_network
    rw [hn]
  · intro hn
    unfold Instance.from_network
    rw [hn]

/-- C6 witness: on the sample network table, network "4" resolves to its
registered address and network "5" resolves to no instance. -/
theorem c6_network_resolution_witness :
    Instance.from_network () "4" (Deployments.new sampleArtifact) =
      some (Instance.at () sampleAbi 774) ∧
    Instance.from_network (W := Unit) () "5" (Deployments.new sampleArtifact) = none :=
  ⟨((c6_network_resolution () "4" (Deployments.new sampleArtifact)).1
      { address := 774 } (by decide)).1,
    (c6_network_resolution () "5" (Deployments.new sampleArtifact)).2 (by decide)⟩

/-- C7: every builder returned by a successful `Instance::method` call
carries the instance's current default call parameters (sender, gas limit,
gas price, value), merged because a fresh builder has none of them set; and
a parameter subsequently set explicitly on the builder overrides the merged
default. -/
theorem c7_defaults_merged {W : Type} (inst : Instance W) (signature : String)
    (params : List Token) (b : MethodBuilder W)
    (h : inst.method signature params = some (Except.ok b)) :
    (b.tx.sender = inst.defaults.sender ∧ b.tx.gasLimit = inst.defaults.gasLimit ∧
      b.tx.gasPrice = inst.defaults.gasPrice ∧ b.tx.value = inst.defaults.value) ∧
    (∀ v, (b.setSender v).tx.sender = some v) ∧
    (∀ v, (b.setGasLimit v).tx.gasLimit = some v) ∧
    (∀ v, (b.setGasPrice v).tx.gasPrice = some v) ∧
    (∀ v, (b.setValue v).tx.value = some v) := by
  cases hlk : hmGet inst.methods signature with
  | none =>
    simp only [Instance.method, hlk] at h
    simp at h
  | some p =>
    cases p with
    | mk name index =>
      cases hfn : inst.abi.functionAt name index with
      | none =>
        simp only [Instance.method, hlk, hfn] at h
        simp at h
      | some f =>
        cases henc : f.encode_input params with
        | error e =>
          simp only [Instance.method, hlk, hfn, henc] at h
          simp at h
        | ok data =>
          simp only [Instance.method, hlk, hfn, henc, Option.some.injEq,
            Except.ok.injEq] at h
          rw [← h]
          refine ⟨?_, fun v => rfl, fun v => rfl, fun v => rfl, fun v => rfl⟩
          simp [MethodBuilder.with_defaults, MethodBuilder.new]

/-- C7 witness: on a sample instance with concrete defaults, the builder of
a successful method call carries those defaults, and explicit setters
override them. -/
theorem c7_defaults_merged_witness :
    ((((MethodBuilder.new () sampleBalanceOf 5
          ([Token.address 7].flatMap Token.encode)).with_defaults
        { sender := some 3, gasLimit := some 21000, gasPrice := none, value := some 0 }).tx.sender
        = some 3) ∧
      ((((MethodBuilder.new () sampleBalanceOf 5
          ([Token.address 7].flatMap Token.encode)).with_defaults
        { sender := some 3, gasLimit := some 21000, gasPrice := none, value := some 0 }).setSender
          9).tx.sender = some 9)) := by
  have happ := c7_defaults_merged
    { Instance.at () sampleAbi 5 with defaults :=
      { sender := some 3, gasLimit := some 21000, gasPrice := none, value := some 0 } }
    "balanceOf(address)" [Token.address 7]
    ((MethodBuilder.new () sampleBalanceOf 5
        ([Token.address 7].flatMap Token.encode)).with_defaults
      { sender := some 3, gasLimit := some 21000, gasPrice := none, value := some 0 })
    rfl
  exact ⟨happ.1.1, happ.2.1 9⟩

/-- C8: binding an instance to an address `a` with `Instance::at`, and
likewise the `at_address` step that concludes a successful deployment at a
receipt-reported created address, yields `Instance.address() = a` exactly,
with the interface description it was constructed with. -/
theorem c8_bound_address {W : Type} (web3 : W) (abi : Abi) (a : Address) (cx : Linker) :
    (Instance.at web3 abi a).address = a ∧ (Instance.at web3 abi a).abi = abi ∧
    (Instance.at_address web3 a cx).address = a ∧
    (Instance.at_address web3 a cx).abi = cx.abi ∧
    Instance.at_address web3 a cx = Instance.at web3 cx.abi a :=
  ⟨rfl, rfl, rfl, rfl, rfl⟩

/-- C10: `Instance::link_and_deploy` links the libraries in iterator order
and is fail-fast: if linking some library fails, the link error (lifted to
a deployment error) is returned whatever libraries follow and whatever the
constructor parameters are — no deployment builder is produced; and only
when every link succeeds is `deploy` invoked on the fully linked linker. -/
theorem c10_link_and_deploy_fail_fast {W : Type} (web3 : W) (artifact : Artifact)
    (params : List Token) (l1 rest : List (String × Address)) (name : String) (addr : Address)
    (linker2 : Linker) (e : LinkError)
    (h1 : linkLibraries (Linker.new artifact) l1 = Except.ok linker2)
    (h2 : linker2.library name addr = Except.error e) :
    Instance.link_and_deploy web3 artifact params (l1 ++ (name, addr) :: rest) =
      Except.error (DeployError.link e) ∧
    ∀ (libs : List (String × Address)) (lk : Linker),
      linkLibraries (Linker.new artifact) libs = Except.ok lk →
      Instance.link_and_deploy web3 artifact params libs = lk.deploy web3 params := by
  constructor
  · unfold Instance.link_and_deploy
    rw [linkLibraries_append, h1]
    simp only [linkLibraries, h2]
  · intro libs lk hok
    unfold Instance.link_and_deploy
    rw [hok]

/-- C10 witness: with an invalid first library name, `link_and_deploy`
returns exactly that link error although a later library and the deployment
step would also be in play; with no libraries, `link_and_deploy` is the
deployment of the fresh linker. -/
theorem c10_link_and_deploy_fail_fast_witness :
    Instance.link_and_deploy () sampleArtifact []
        ([] ++ ("0123456789012345678901234567890123456789", 7) :: [("MathLib", 999)]) =
      Except.error (DeployError.link
        (LinkError.invalidName "0123456789012345678901234567890123456789")) ∧
    Instance.link_and_deploy () sampleArtifact [] [] =
      (Linker.new sampleArtifact).deploy () [] :=
  ⟨(c10_link_and_deploy_fail_fast () sampleArtifact [] []
      [("MathLib", 999)] "0123456789012345678901234567890123456789" 7
      (Linker.new sampleArtifact)
      (LinkError.invalidName "0123456789012345678901234567890123456789")
      rfl rfl).1,
    (c10_link_and_deploy_fail_fast () sampleArtifact [] []
      [("MathLib", 999)] "0123456789012345678901234567890123456789" 7
      (Linker.new sampleArtifact)
      (LinkError.invalidName "0123456789012345678901234567890123456789")
      rfl rfl).2 [] (Linker.new sampleArtifact) rfl⟩

end EthContract
